import Mathlib

/-!
Verification development for the proxy validation engine in `src/checker.py`.

The Python module is embedded shallowly: network I/O is abstracted by an
explicit environment (`NetEnv`) recording, per candidate, what each socket
operation would observe (connection success, HTTP status / elapsed time /
body, SOCKS reply bytes, ...).  All control flow, accumulator updates and
result finalization follow the source line by line.  Elapsed wall-clock
times are modelled as rationals.
-/

namespace Checker

/-! ### Python string and int primitives

`str.split(sep)` for a one-character separator, `str.strip()` restricted to
ASCII whitespace, and `int(s)` (optional surrounding whitespace, optional
sign, decimal digits with single underscores between digits). -/

/-- Python `str.split(c)` on the character list: splitting `""` yields `[""]`,
separators at the ends yield empty fields, exactly as in Python. -/
def splitOnChar (c : Char) : List Char → List (List Char)
  | [] => [[]]
  | x :: xs =>
    let r := splitOnChar c xs
    if x = c then [] :: r
    else
      match r with
      | h :: t => (x :: h) :: t
      | [] => [[x]]

/-- Python `proxy_str.split(":")` (and friends) as a `String` operation. -/
def pySplit (s : String) (c : Char) : List String :=
  (splitOnChar c s.data).map String.mk

/-- Python `str.strip()` on a character list (ASCII whitespace). -/
def trimChars (l : List Char) : List Char :=
  ((l.dropWhile Char.isWhitespace).reverse.dropWhile Char.isWhitespace).reverse

/-- Digit tail of a Python int literal: digits with single underscores
allowed only between digits. -/
def digitsTail : List Char → Nat → Option Nat
  | [], acc => some acc
  | '_' :: c :: rest, acc =>
    if c.isDigit then digitsTail rest (acc * 10 + (c.toNat - 48)) else none
  | c :: rest, acc =>
    if c.isDigit then digitsTail rest (acc * 10 + (c.toNat - 48)) else none

/-- Nonempty run of decimal digits (with inner underscores) to a `Nat`. -/
def pyNatDigits : List Char → Option Nat
  | c :: rest => if c.isDigit then digitsTail rest (c.toNat - 48) else none
  | [] => none

/-- Optional sign followed by digits. -/
def pyIntOfChars : List Char → Option Int
  | '+' :: rest => (pyNatDigits rest).map Int.ofNat
  | '-' :: rest => (pyNatDigits rest).map fun n => -(n : Int)
  | l => (pyNatDigits l).map Int.ofNat

/-- Python `int(s)`: raises `ValueError` (here: `none`) on anything that is
not optional whitespace, an optional sign and a nonempty digit string. -/
def pyIntParse (s : String) : Option Int :=
  pyIntOfChars (trimChars s.data)

/-! ### `IP_PATTERN = re.compile(r"\d{1,3}(?:\.\d{1,3}){3}")`

For this pattern a greedy matcher without backtracking is exact: every
`\d{1,3}` is followed either by a literal `.` or by the end of the pattern,
and shortening a greedy digit run can never turn the following character
into a `.`. -/

/-- Greedily grab up to three leading digits; return them and the rest. -/
def grabDigits (l : List Char) : List Char × List Char :=
  let ds := (l.takeWhile Char.isDigit).take 3
  (ds, l.drop ds.length)

/-- Match one `\.\d{1,3}` group at the head of the input. -/
def matchDotGroup (l : List Char) : Option (List Char × List Char) :=
  match l with
  | '.' :: rest =>
    let (ds, r) := grabDigits rest
    if ds.isEmpty then none else some ('.' :: ds, r)
  | _ => none

/-- Match the full pattern `\d{1,3}(?:\.\d{1,3}){3}` anchored at the head;
returns the matched characters. -/
def matchQuadAt (l : List Char) : Option (List Char) :=
  let (d1, r1) := grabDigits l
  if d1.isEmpty then none
  else
    match matchDotGroup r1 with
    | none => none
    | some (g2, r2) =>
      match matchDotGroup r2 with
      | none => none
      | some (g3, r3) =>
        match matchDotGroup r3 with
        | none => none
        | some (g4, _) => some (d1 ++ g2 ++ g3 ++ g4)

/-- Search as `IP_PATTERN.search`: try each start position left to right. -/
def ipSearchAux : List Char → Option (List Char)
  | [] => none
  | l@(_ :: rest) =>
    match matchQuadAt l with
    | some m => some m
    | none => ipSearchAux rest

/-- Full `IP_PATTERN.search(s)` returning `match.group(0)`. -/
def ipSearch (s : String) : Option String :=
  (ipSearchAux s.data).map String.mk

/-! ### Python `round(x, 3)` on rationals (round half to even). -/

/-- Floor of a rational as an integer (denominators are positive, so
`Int.fdiv` on numerator and denominator is the floor). -/
def ratFloor (q : ℚ) : ℤ :=
  q.num.fdiv q.den

/-- Round a rational to the nearest integer, ties to even (Python `round`). -/
def roundHalfEven (q : ℚ) : ℤ :=
  let f := ratFloor q
  let r := q - (f : ℚ)
  if r < 1 / 2 then f
  else if 1 / 2 < r then f + 1
  else if f % 2 = 0 then f else f + 1

/-- Python `round(q, 3)`: idealized decimal rounding of the source's float call. -/
def pyRound3 (q : ℚ) : ℚ :=
  (roundHalfEven (q * 1000) : ℚ) / 1000

/-! ### Static configuration (module-level constants of `checker.py`). -/

def VALIDATION_URLS : List String :=
  ["http://icanhazip.com", "http://api.ipify.org", "http://ip.me"]

def HTTPS_VALIDATION_URL : String := "https://api.ipify.org"

def MAX_CONCURRENT : Nat := 100

def TIMEOUT_SECONDS : Nat := 6

def BATCH_SIZE : Nat := 200

/-- The SOCKS `test_targets` list built in `check_proxy`. -/
def testTargets : List (String × Nat) :=
  [("icanhazip.com", 80), ("api.ipify.org", 80), ("ip.me", 80)]

/-! ### Data model. -/

/-- The `ProxyResult` dataclass, field for field (defaults included). -/
structure ProxyResult where
  proxy : String
  proto : String
  alive : Bool := false
  response_time : ℚ := 0
  ip_returned : String := ""
  checks_passed : Nat := 0
  checks_total : Nat := 0
  error : String := ""
  deriving DecidableEq, Repr

/-- What one SOCKS4 connection attempt to a candidate would observe:
whether `open_connection` succeeds, what `inet_aton(gethostbyname(...))`
yields for the destination (`none` = resolver error, an `OSError`), and the
server's reply stream as a function of the bytes we send (`none` =
read timeout / `OSError`). -/
structure Socks4Conn where
  conn : Bool := false
  resolve : Option (List Nat) := none
  reply : List Nat → Option (List Nat) := fun _ => none

/-- What one SOCKS5 connection attempt would observe: connection success,
the greeting reply stream answered to `[0x05, 0x01, 0x00]`, destination
resolution, and the reply stream answered to the CONNECT request. -/
structure Socks5Conn where
  conn : Bool := false
  greet : Option (List Nat) := none
  resolve : Option (List Nat) := none
  reply : List Nat → Option (List Nat) := fun _ => none

/-- Abstract network environment for one run.  Each field records what the
corresponding I/O operation of `checker.py` would observe; `raiseAt p`
models an unexpected exception reaching `check_proxy`'s outer
`except Exception` while iterating candidate `p`'s endpoints (raised just
before check number `n` runs); `outerTimeout p` models the
`asyncio.wait_for` deadline in `_task`; `taskExc p` models a task entry of
`asyncio.gather(..., return_exceptions=True)` being an exception. -/
structure NetEnv where
  portOpen : String → Int → Bool := fun _ _ => true
  http : String → String → Option (Nat × ℚ × String) := fun _ _ => none
  socks4 : String → Int → String → Nat → Socks4Conn := fun _ _ _ _ => {}
  socks5 : String → Int → String → Nat → Socks5Conn := fun _ _ _ _ => {}
  socksElapsed : String → Int → String → Nat → ℚ := fun _ _ _ _ => 0
  raiseAt : String → Option Nat := fun _ => none
  outerTimeout : String → Bool := fun _ => false
  taskExc : String → Bool := fun _ => false

/-- The prefilter `_port_open(host, port)`: the prefilter outcome as the environment
records it (any exception means `False` in the source). -/
def port_open (e : NetEnv) (host : String) (port : Int) : Bool :=
  e.portOpen host port

/-! ### SOCKS handshakes. -/

/-- The SOCKS4 CONNECT request bytes:
`struct.pack(">BBH", 0x04, 0x01, dest_port) + dest_ip + b"\x00"`.
(`struct.pack` raises for `dest_port ≥ 2^16`; the engine only ever passes
port 80.) -/
def socks4Request (dest_port : Nat) (dest_ip : List Nat) : List Nat :=
  [0x04, 0x01, dest_port / 256 % 256, dest_port % 256] ++ dest_ip ++ [0x00]

/-- The checker `_socks4_connect`: open, resolve, send the request, `read(8)`, grant
iff the reply has at least two bytes and byte 1 is `0x5A`.  Every failure
path of the source (`TimeoutError`/`OSError` anywhere) returns `false`. -/
def socks4_connect (c : Socks4Conn) (dest_port : Nat) : Bool :=
  if c.conn then
    match c.resolve with
    | none => false
    | some dest_ip =>
      match c.reply (socks4Request dest_port dest_ip) with
      | none => false
      | some stream =>
        let resp := stream.take 8
        decide (2 ≤ resp.length ∧ resp.getD 1 0 = 0x5A)
  else false

/-- The SOCKS5 CONNECT request bytes:
`struct.pack(">BBB", 5, 1, 0) + b"\x01" + dest_ip + struct.pack(">H", dest_port)`. -/
def socks5Request (dest_port : Nat) (dest_ip : List Nat) : List Nat :=
  [0x05, 0x01, 0x00, 0x01] ++ dest_ip ++ [dest_port / 256 % 256, dest_port % 256]

/-- The checker `_socks5_connect`: greeting `[5,1,0]`, `read(2)` must be `[5,0]`, then
CONNECT, `read(10)`, success iff at least two bytes and byte 1 is `0x00`. -/
def socks5_connect (c : Socks5Conn) (dest_port : Nat) : Bool :=
  if c.conn then
    match c.greet with
    | none => false
    | some g =>
      let resp := g.take 2
      if resp.length < 2 ∨ resp.getD 0 0 ≠ 0x05 ∨ resp.getD 1 0 ≠ 0x00 then false
      else
        match c.resolve with
        | none => false
        | some dest_ip =>
          match c.reply (socks5Request dest_port dest_ip) with
          | none => false
          | some stream =>
            let resp2 := stream.take 10
            decide (2 ≤ resp2.length ∧ resp2.getD 1 0 = 0x00)
  else false

/-! ### HTTP / HTTPS check. -/

/-- The checker `_check_http_proxy`: returns `(success, response_time, ip_returned)`.
`none` from the environment models any exception inside the `try` block
(yielding `(False, 0.0, "")`); otherwise non-200 fails, else the body is
stripped, searched with `IP_PATTERN`, and success is `bool(ip)`. -/
def check_http_proxy (e : NetEnv) (proxy_str url : String) :
    Bool × ℚ × String :=
  match e.http proxy_str url with
  | none => (false, 0, "")
  | some (status, elapsed, body) =>
    if status ≠ 200 then (false, elapsed, "")
    else
      let ip := (ipSearchAux (trimChars body.data)).elim "" String.mk
      (ip != "", elapsed, ip)

/-! ### The per-candidate validation loop of `check_proxy`. -/

/-- The local accumulators of `check_proxy`'s endpoint loop
(`passed`, `total_time`, `first_ip`), plus `attempted`: the number of
checker invocations actually performed (the call-count instrumentation the
spec's fail-fast property asks for). -/
structure LoopState where
  passed : Nat := 0
  total_time : ℚ := 0
  first_ip : String := ""
  attempted : Nat := 0
  deriving DecidableEq, Repr

/-- The `for url in urls` loop of the HTTP/HTTPS branch.  `chk` is the
closure `_check_http_proxy(proxy_str, ·, TIMEOUT_SECONDS)`; `raiseQ` is the
index at which an unexpected exception (if any) reaches the outer
`except Exception`; a failed check breaks out (fail fast). -/
def httpLoop (chk : String → Bool × ℚ × String) (raiseQ : Option Nat) :
    List String → Nat → LoopState → LoopState
  | [], _, s => s
  | url :: rest, i, s =>
    if raiseQ = some i then s
    else
      let r := chk url
      let s1 := { s with attempted := s.attempted + 1 }
      if r.1 then
        httpLoop chk raiseQ rest (i + 1)
          { s1 with
            passed := s1.passed + 1
            total_time := s1.total_time + r.2.1
            first_ip := if s1.first_ip = "" ∧ r.2.2 ≠ "" then r.2.2 else s1.first_ip }
      else s1

/-- The `for dest_host, dest_port in test_targets` loop of the SOCKS
branch.  `sck` is `connect_fn(host, port, ·, ·, TIMEOUT_SECONDS)` and `elp`
the elapsed wall time measured around it; `first_ip` is never touched. -/
def socksLoop (sck : String → Nat → Bool) (elp : String → Nat → ℚ)
    (raiseQ : Option Nat) : List (String × Nat) → Nat → LoopState → LoopState
  | [], _, s => s
  | (dh, dp) :: rest, i, s =>
    if raiseQ = some i then s
    else
      let ok := sck dh dp
      let s1 := { s with attempted := s.attempted + 1 }
      if ok then
        socksLoop sck elp raiseQ rest (i + 1)
          { s1 with
            passed := s1.passed + 1
            total_time := s1.total_time + elp dh dp }
      else s1

/-- The list `urls = VALIDATION_URLS[:]`, plus the HTTPS endpoint for `https`. -/
def protoUrls (proto : String) : List String :=
  if proto = "https" then VALIDATION_URLS ++ [HTTPS_VALIDATION_URL]
  else VALIDATION_URLS

/-- Dispatch on the protocol branch of `check_proxy`: returns
`(checks_total as set in that branch, final loop state)`.  An unrecognized
protocol leaves both at their initial values. -/
def checkCore (e : NetEnv) (proxy_str proto host : String) (port : Int) :
    Nat × LoopState :=
  if proto = "http" ∨ proto = "https" then
    let urls := protoUrls proto
    (urls.length, httpLoop (check_http_proxy e proxy_str) (e.raiseAt proxy_str) urls 0 {})
  else if proto = "socks4" ∨ proto = "socks5" then
    (testTargets.length,
      socksLoop
        (fun dh dp =>
          if proto = "socks4" then socks4_connect (e.socks4 host port dh dp) dp
          else socks5_connect (e.socks5 host port dh dp) dp)
        (fun dh dp => e.socksElapsed host port dh dp)
        (e.raiseAt proxy_str) testTargets 0 {})
  else (0, {})

/-- The finalization lines at the bottom of `check_proxy`:
`checks_passed`, `alive = (passed == checks_total and passed > 0)`,
`response_time = round(total_time / max(passed, 1), 3)`, `ip_returned`. -/
def finalize (base : ProxyResult) (total : Nat) (s : LoopState) : ProxyResult :=
  { base with
    checks_passed := s.passed
    checks_total := total
    alive := decide (s.passed = total ∧ 0 < s.passed)
    response_time := pyRound3 (s.total_time / ((max s.passed 1 : Nat) : ℚ))
    ip_returned := s.first_ip }

/-- The validator `check_proxy(proxy_str, proto)`. -/
def check_proxy (e : NetEnv) (proxy_str proto : String) : ProxyResult :=
  let base : ProxyResult := { proxy := proxy_str, proto := proto }
  match pySplit proxy_str ':' with
  | [host, port_str] =>
    match pyIntParse port_str with
    | none => { base with error := "invalid port" }
    | some port =>
      if port_open e host port then
        finalize base (checkCore e proxy_str proto host port).1
          (checkCore e proxy_str proto host port).2
      else { base with error := "port closed" }
  | _ => { base with error := "invalid format" }

/-! ### Batch validation (`check_all`). -/

/-- The task wrapper `_task(proxy_str)`: the outer `asyncio.wait_for` deadline yields a bare
`ProxyResult` with `error="timeout"`; otherwise the `check_proxy` result. -/
def task (e : NetEnv) (proxy_str proto : String) : ProxyResult :=
  if e.outerTimeout proxy_str then
    { proxy := proxy_str, proto := proto, error := "timeout" }
  else check_proxy e proxy_str proto

/-- One entry of `asyncio.gather(..., return_exceptions=True)`: either the
task's result or an exception object. -/
def taskEntry (e : NetEnv) (proxy_str proto : String) : Except Unit ProxyResult :=
  if e.taskExc proxy_str then Except.error () else Except.ok (task e proxy_str proto)

/-- The body of `check_all`'s collection loop, restricted to what lands in
`live`: a `ProxyResult` with `alive` set (exceptions yield a dummy that is
never appended). -/
def aliveOf : Except Unit ProxyResult → Option ProxyResult
  | Except.ok r => if r.alive then some r else none
  | Except.error _ => none

/-- The alive results accumulated from a list of candidates. -/
def aliveResults (e : NetEnv) (proto : String) (l : List String) : List ProxyResult :=
  (l.map fun p => taskEntry e p proto).filterMap aliveOf

/-- The batching `for batch_start in range(0, total, BATCH_SIZE): proxies[batch_start :
batch_start + BATCH_SIZE]` — the list of batches. -/
def chunks (l : List String) : List (List String) :=
  (List.range ((l.length + (BATCH_SIZE - 1)) / BATCH_SIZE)).map fun k =>
    (l.drop (BATCH_SIZE * k)).take BATCH_SIZE

/-- The batch loop of `check_all`: processes each batch, appends its alive
results to `live`, and after the batch (never inside it) stops if
`target > 0 and len(live) >= target`.  Returns the final `live` list and
the concatenation of the batches actually dispatched. -/
def checkAllGo (e : NetEnv) (proto : String) (target : Nat) :
    List (List String) → List ProxyResult → List ProxyResult × List String
  | [], live => (live, [])
  | b :: rest, live =>
    let live2 := live ++ aliveResults e proto b
    if 0 < target ∧ target ≤ live2.length then (live2, b)
    else
      let r := checkAllGo e proto target rest live2
      (r.1, b ++ r.2)

/-- Comparison used by `live.sort(key=lambda r: r.response_time)`. -/
def rtLE (a b : ProxyResult) : Prop :=
  a.response_time ≤ b.response_time

instance : DecidableRel rtLE := fun a b =>
  inferInstanceAs (Decidable (a.response_time ≤ b.response_time))

instance : IsTotal ProxyResult rtLE :=
  ⟨fun a b => le_total a.response_time b.response_time⟩

instance : IsTrans ProxyResult rtLE :=
  ⟨fun _ _ _ h1 h2 => le_trans h1 h2⟩

/-- The entry point `check_all(proxies, proto, on_progress, target)`: batch loop then
`live.sort(key=...)`. -/
def check_all (e : NetEnv) (proxies : List String) (proto : String)
    (target : Nat) : List ProxyResult :=
  List.insertionSort rtLE (checkAllGo e proto target (chunks proxies) []).1

/-- The candidates `check_all` actually dispatched (every candidate of
every batch the loop issued). -/
def dispatched (e : NetEnv) (proxies : List String) (proto : String)
    (target : Nat) : List String :=
  (checkAllGo e proto target (chunks proxies) []).2

/-! ### Spec-side observation functions.

These re-express quantities of the run (loop state reached, mean elapsed
time of successful checks, number of checkers invoked, per-endpoint
outcomes) so the claims can mention them; each mirrors the corresponding
path of `check_proxy` exactly. -/

/-- The full configured endpoint-set size per protocol. -/
def configTotal (proto : String) : Nat :=
  if proto = "https" then 4
  else if proto = "http" ∨ proto = "socks4" ∨ proto = "socks5" then 3
  else 0

/-- The endpoint-loop state `check_proxy` reaches for a candidate (the
initial state on the early-return paths that never run the loop). -/
def loopStateOf (e : NetEnv) (p proto : String) : LoopState :=
  match pySplit p ':' with
  | [host, port_str] =>
    match pyIntParse port_str with
    | some port =>
      if port_open e host port then (checkCore e p proto host port).2 else {}
    | none => {}
  | _ => {}

/-- Arithmetic mean of the elapsed times of the successful checks
(0 when none succeeded). -/
def meanSuccess (e : NetEnv) (p proto : String) : ℚ :=
  let s := loopStateOf e p proto
  if s.passed = 0 then 0 else s.total_time / (s.passed : ℚ)

/-- Call-count instrumentation: how many endpoint checkers `check_proxy`
invoked for this candidate. -/
def attemptedChecks (e : NetEnv) (p proto : String) : Nat :=
  (loopStateOf e p proto).attempted

/-- The outcome the `i`-th configured endpoint check would report for this
candidate (`none` when `i` is out of range or the protocol unknown). -/
def endpointOk (e : NetEnv) (p proto host : String) (port : Int) (i : Nat) :
    Option Bool :=
  if proto = "http" ∨ proto = "https" then
    ((protoUrls proto)[i]?).map fun url => (check_http_proxy e p url).1
  else if proto = "socks4" ∨ proto = "socks5" then
    (testTargets[i]?).map fun t =>
      if proto = "socks4" then socks4_connect (e.socks4 host port t.1 t.2) t.2
      else socks5_connect (e.socks5 host port t.1 t.2) t.2
  else none

/-- Two environments observe identically everything that candidate `p`'s
validation can touch. -/
def envAgreeAt (e1 e2 : NetEnv) (p : String) : Prop :=
  e1.raiseAt p = e2.raiseAt p ∧
  e1.outerTimeout p = e2.outerTimeout p ∧
  e1.taskExc p = e2.taskExc p ∧
  (∀ url, e1.http p url = e2.http p url) ∧
  ∀ host port_str port, pySplit p ':' = [host, port_str] →
    pyIntParse port_str = some port →
    e1.portOpen host port = e2.portOpen host port ∧
    (∀ dh dp, e1.socks4 host port dh dp = e2.socks4 host port dh dp) ∧
    (∀ dh dp, e1.socks5 host port dh dp = e2.socks5 host port dh dp) ∧
    (∀ dh dp, e1.socksElapsed host port dh dp = e2.socksElapsed host port dh dp)

/-- Numeric value of a digit run. -/
def digitsToNat (l : List Char) : Nat :=
  l.foldl (fun acc c => acc * 10 + (c.toNat - 48)) 0

/-- Modelled from the spec: one octet of a "syntactically valid IPv4
address" — a nonempty digit run whose value is at most 255 (leading zeros
deliberately tolerated, which only strengthens a no-valid-octet result). -/
def octetOk (l : List Char) : Bool :=
  !l.isEmpty && l.all Char.isDigit && decide (digitsToNat l ≤ 255)

/-- Modelled from the spec: a "syntactically valid IPv4 address" — four
dot-separated octets, each between 0 and 255. -/
def isValidIPv4Chars (l : List Char) : Bool :=
  match splitOnChar '.' l with
  | [a, b, c, d] => octetOk a && octetOk b && octetOk c && octetOk d
  | _ => false

/-- All contiguous substrings of a character list (with duplicates). -/
def segments (l : List Char) : List (List Char) :=
  l.tails.flatMap List.inits

/-! ### Helper lemmas. -/

lemma alive_decide_iff (a b : Nat) :
    (decide (a = b ∧ 0 < a) = true) ↔ (a = b ∧ 0 < b) := by
  simp only [decide_eq_true_eq]
  omega

/-- C1 — `alive == true` iff `checks_passed == checks_total > 0` on every
finalized `check_proxy` result. -/
theorem c1_alive_iff (e : NetEnv) (p proto : String) :
    (check_proxy e p proto).alive = true ↔
      ((check_proxy e p proto).checks_passed = (check_proxy e p proto).checks_total ∧
        0 < (check_proxy e p proto).checks_total) := by
  unfold check_proxy
  split
  · split
    · simp
    · split
      · simp only [finalize, alive_decide_iff]
      · simp
  · simp

lemma socksLoop_first_ip (sck : String → Nat → Bool) (elp : String → Nat → ℚ)
    (rq : Option Nat) :
    ∀ (L : List (String × Nat)) (i : Nat) (s : LoopState),
      (socksLoop sck elp rq L i s).first_ip = s.first_ip := by
  intro L
  induction L with
  | nil => intro i s; rfl
  | cons hd tl ih =>
    intro i s
    obtain ⟨dh, dp⟩ := hd
    unfold socksLoop
    split
    · rfl
    · dsimp only
      split
      · exact ih (i + 1) _
      · rfl

/-- C10 — SOCKS validations never capture an identifier: `ip_returned`
stays empty for `socks4`/`socks5` candidates, alive or not. -/
theorem c10_socks_ip_empty (e : NetEnv) (p proto : String)
    (h : proto = "socks4" ∨ proto = "socks5") :
    (check_proxy e p proto).ip_returned = "" := by
  unfold check_proxy
  split
  · split
    · rfl
    · split
      · have hs : ¬(proto = "http" ∨ proto = "https") := by
          rcases h with h | h <;> subst h <;> simp
        simp only [finalize, checkCore, hs, if_false]
        split
        · exact socksLoop_first_ip _ _ _ _ _ _
        · exact absurd h (by assumption)
      · rfl
  · rfl

/-- Witness for C10 at a concrete alive SOCKS4 candidate. -/
theorem c10_socks_ip_empty_witness :
    (check_proxy
      { socks4 := fun _ _ _ _ =>
          { conn := true, resolve := some [1, 2, 3, 4],
            reply := fun _ => some [0, 0x5A] } }
      "1.2.3.4:1080" "socks4").ip_returned = "" :=
  c10_socks_ip_empty _ "1.2.3.4:1080" "socks4" (Or.inl rfl)

/-- C3 counterexample — a malformed candidate (`"1.2.3.4"`, no port) is
finalized with `checks_total = 0`, not the full endpoint-set size 3 the
claim asserts for `http`. -/
theorem c3_total_counterexample :
    (check_proxy ({} : NetEnv) "1.2.3.4" "http").checks_total ≠ 3 := by
  decide

/-- C3 amended — `checks_total` equals the full configured endpoint-set
size whenever the candidate parses and its port prefilter succeeds
(fail-fast or a mid-validation exception never shrinks it), but it is `0`
for a malformed candidate, a closed port, or an outer-deadline timeout. -/
theorem c3_total_amended (e : NetEnv) (p proto : String) :
    (∀ host port_str port, pySplit p ':' = [host, port_str] →
      pyIntParse port_str = some port → port_open e host port = true →
      (proto = "http" ∨ proto = "https" ∨ proto = "socks4" ∨ proto = "socks5") →
      (check_proxy e p proto).checks_total = configTotal proto) ∧
    ((pySplit p ':').length ≠ 2 → (check_proxy e p proto).checks_total = 0) ∧
    (∀ host port_str, pySplit p ':' = [host, port_str] →
      pyIntParse port_str = none → (check_proxy e p proto).checks_total = 0) ∧
    (∀ host port_str port, pySplit p ':' = [host, port_str] →
      pyIntParse port_str = some port → port_open e host port = false →
      (check_proxy e p proto).checks_total = 0) ∧
    (e.outerTimeout p = true → (task e p proto).checks_total = 0) := by
  refine ⟨?_, ?_, ?_, ?_, ?_⟩
  · intro host port_str port hsplit hparse hopen hproto
    simp only [check_proxy, hsplit, hparse, hopen, if_true]
    rcases hproto with h | h | h | h <;> subst h <;>
      simp [finalize, checkCore, protoUrls, VALIDATION_URLS, HTTPS_VALIDATION_URL,
        testTargets, configTotal]
  · intro hlen
    unfold check_proxy
    split
    · rename_i heq
      exact absurd (by rw [heq]; rfl) hlen
    · rfl
  · intro host port_str hsplit hparse
    simp only [check_proxy, hsplit, hparse]
  · intro host port_str port hsplit hparse hopen
    simp only [check_proxy, hsplit, hparse, hopen, Bool.false_eq_true, if_false]
  · intro ht
    simp only [task, ht, if_true]

/-- Witness for the amended C3 at a concrete well-formed candidate. -/
theorem c3_total_amended_witness :
    pySplit "1.2.3.4:80" ':' = ["1.2.3.4", "80"] ∧
    pyIntParse "80" = some 80 ∧
    (check_proxy ({} : NetEnv) "1.2.3.4:80" "http").checks_total = configTotal "http" :=
  ⟨by decide, by decide,
    (c3_total_amended ({} : NetEnv) "1.2.3.4:80" "http").1 "1.2.3.4" "80" 80
      (by decide) (by decide) rfl (Or.inl rfl)⟩

lemma httpLoop_passed_tt (chk : String → Bool × ℚ × String) (rq : Option Nat) :
    ∀ (L : List String) (i : Nat) (s : LoopState),
      (s.passed = 0 → s.total_time = 0) →
      ((httpLoop chk rq L i s).passed = 0 → (httpLoop chk rq L i s).total_time = 0) := by
  intro L
  induction L with
  | nil => intro i s h; exact h
  | cons hd tl ih =>
    intro i s h
    unfold httpLoop
    split
    · exact h
    · dsimp only
      split
      · exact ih (i + 1) _ (fun hp => absurd hp (Nat.succ_ne_zero _))
      · exact h

lemma socksLoop_passed_tt (sck : String → Nat → Bool) (elp : String → Nat → ℚ)
    (rq : Option Nat) :
    ∀ (L : List (String × Nat)) (i : Nat) (s : LoopState),
      (s.passed = 0 → s.total_time = 0) →
      ((socksLoop sck elp rq L i s).passed = 0 →
        (socksLoop sck elp rq L i s).total_time = 0) := by
  intro L
  induction L with
  | nil => intro i s h; exact h
  | cons hd tl ih =>
    intro i s h
    obtain ⟨dh, dp⟩ := hd
    unfold socksLoop
    split
    · exact h
    · dsimp only
      split
      · exact ih (i + 1) _ (fun hp => absurd hp (Nat.succ_ne_zero _))
      · exact h

lemma checkCore_passed_tt (e : NetEnv) (p proto host : String) (port : Int) :
    (checkCore e p proto host port).2.passed = 0 →
    (checkCore e p proto host port).2.total_time = 0 := by
  unfold checkCore
  split
  · exact httpLoop_passed_tt _ _ _ _ _ (fun _ => rfl)
  · split
    · exact socksLoop_passed_tt _ _ _ _ _ _ (fun _ => rfl)
    · intro _; rfl

lemma mean_of_max (s : LoopState) (h : s.passed = 0 → s.total_time = 0) :
    s.total_time / ((max s.passed 1 : Nat) : ℚ) =
      if s.passed = 0 then 0 else s.total_time / (s.passed : ℚ) := by
  by_cases hp : s.passed = 0
  · simp [hp, h hp]
  · have hm : max s.passed 1 = s.passed := by omega
    simp [hp, hm]

lemma ratFloor_eq_floor (q : ℚ) : ratFloor q = ⌊q⌋ := by
  rw [ratFloor, Rat.floor_def, Int.fdiv_eq_ediv]
  exact Int.ofNat_nonneg q.den

lemma pyRound3_zero : pyRound3 0 = 0 := by
  simp [pyRound3, roundHalfEven, ratFloor]

/-- C4 amended — `response_time` equals the arithmetic mean of the elapsed
times of the successful checks rounded to 3 decimal places (Python
`round`, ties to even), and it is `0` whenever no check succeeded. -/
theorem c4_response_time_amended (e : NetEnv) (p proto : String) :
    (check_proxy e p proto).response_time = pyRound3 (meanSuccess e p proto) ∧
    ((check_proxy e p proto).checks_passed = 0 →
      (check_proxy e p proto).response_time = 0) := by
  unfold check_proxy meanSuccess loopStateOf
  rcases hsplit : pySplit p ':' with _ | ⟨host, _ | ⟨ps, _ | ⟨y, tl⟩⟩⟩ <;>
    simp only [hsplit]
  case cons.cons.nil =>
    rcases hparse : pyIntParse ps with _ | port <;> simp only [hparse]
    · simp [pyRound3_zero]
    · by_cases hopen : port_open e host port = true
      · have hc := checkCore_passed_tt e p proto host port
        simp only [hopen, if_true, finalize]
        refine ⟨by rw [mean_of_max _ hc], fun hp => ?_⟩
        rw [mean_of_max _ hc]
        simp [hp, pyRound3_zero]
      · simp [hopen, pyRound3_zero]
  all_goals simp [pyRound3_zero]

/-- Environment for the C4 counterexample: every HTTP check succeeds with
elapsed time 1/3 s. -/
def envThirds : NetEnv :=
  { http := fun _ _ => some (200, 1 / 3, "1.2.3.4") }

lemma envThirds_rt :
    (check_proxy envThirds "8.8.8.8:80" "http").response_time =
      pyRound3 (((0 : ℚ) + 1 / 3 + 1 / 3 + 1 / 3) / ((max 3 1 : ℕ) : ℚ)) := rfl

lemma envThirds_mean :
    meanSuccess envThirds "8.8.8.8:80" "http" =
      ((0 : ℚ) + 1 / 3 + 1 / 3 + 1 / 3) / ((3 : ℕ) : ℚ) := rfl

lemma pyRound3_third : pyRound3 (1 / 3) = 333 / 1000 := by
  have h1 : ((1 : ℚ) / 3) * 1000 = 1000 / 3 := by norm_num
  have h2 : ratFloor ((1000 : ℚ) / 3) = 333 := by
    rw [ratFloor_eq_floor]; norm_num
  simp only [pyRound3, roundHalfEven, h1, h2]
  norm_num

/-- C4 counterexample — with three successful checks of 1/3 s each the mean
is 1/3, but the finalized `response_time` is the rounded `0.333`, so the
claim's exact-mean equation fails. -/
theorem c4_response_time_counterexample :
    (check_proxy envThirds "8.8.8.8:80" "http").checks_passed = 3 ∧
    meanSuccess envThirds "8.8.8.8:80" "http" = 1 / 3 ∧
    (check_proxy envThirds "8.8.8.8:80" "http").response_time = 333 / 1000 ∧
    (check_proxy envThirds "8.8.8.8:80" "http").response_time ≠
      meanSuccess envThirds "8.8.8.8:80" "http" := by
  have hm : meanSuccess envThirds "8.8.8.8:80" "http" = 1 / 3 := by
    rw [envThirds_mean]; norm_num
  have hr : (check_proxy envThirds "8.8.8.8:80" "http").response_time = 333 / 1000 := by
    rw [envThirds_rt]
    have : ((0 : ℚ) + 1 / 3 + 1 / 3 + 1 / 3) / ((max 3 1 : ℕ) : ℚ) = 1 / 3 := by
      norm_num
    rw [this, pyRound3_third]
  refine ⟨by decide, hm, hr, ?_⟩
  rw [hm, hr]
  norm_num

/-- Witness for the amended C4: the default environment fails every check,
so the mean is 0 and so is the finalized `response_time`. -/
theorem c4_response_time_amended_witness :
    (check_proxy ({} : NetEnv) "1.2.3.4:80" "http").response_time =
      pyRound3 (meanSuccess ({} : NetEnv) "1.2.3.4:80" "http") ∧
    (check_proxy ({} : NetEnv) "1.2.3.4:80" "http").response_time = 0 :=
  ⟨(c4_response_time_amended {} "1.2.3.4:80" "http").1,
    (c4_response_time_amended {} "1.2.3.4:80" "http").2 (by decide)⟩

lemma httpLoop_attempted_le (chk : String → Bool × ℚ × String) (rq : Option Nat) :
    ∀ (L : List String) (j : Nat) (url : String), L[j]? = some url →
      (chk url).1 = false → ∀ (i : Nat) (s : LoopState),
      (httpLoop chk rq L i s).attempted ≤ s.attempted + j + 1 := by
  intro L
  induction L with
  | nil => intro j url h; simp at h
  | cons hd tl ih =>
    intro j url hj hfail i s
    unfold httpLoop
    split
    · omega
    · dsimp only
      cases j with
      | zero =>
        simp only [List.getElem?_cons_zero, Option.some.injEq] at hj
        subst hj
        split
        · rename_i hok
          rw [hfail] at hok
          exact absurd hok (by simp)
        · simp
      | succ j =>
        simp only [List.getElem?_cons_succ] at hj
        split
        · have := ih j url hj hfail (i + 1)
            { s with
              attempted := s.attempted + 1
              passed := s.passed + 1
              total_time := s.total_time + (chk hd).2.1
              first_ip :=
                if s.first_ip = "" ∧ (chk hd).2.2 ≠ "" then (chk hd).2.2
                else s.first_ip }
          simp only at this ⊢
          omega
        · simp only
          omega

lemma socksLoop_attempted_le (sck : String → Nat → Bool) (elp : String → Nat → ℚ)
    (rq : Option Nat) :
    ∀ (L : List (String × Nat)) (j : Nat) (t : String × Nat), L[j]? = some t →
      sck t.1 t.2 = false → ∀ (i : Nat) (s : LoopState),
      (socksLoop sck elp rq L i s).attempted ≤ s.attempted + j + 1 := by
  intro L
  induction L with
  | nil => intro j t h; simp at h
  | cons hd tl ih =>
    intro j t hj hfail i s
    obtain ⟨dh, dp⟩ := hd
    unfold socksLoop
    split
    · omega
    · dsimp only
      cases j with
      | zero =>
        simp only [List.getElem?_cons_zero, Option.some.injEq] at hj
        subst hj
        split
        · rename_i hok
          rw [hfail] at hok
          exact absurd hok (by simp)
        · simp
      | succ j =>
        simp only [List.getElem?_cons_succ] at hj
        split
        · have := ih j t hj hfail (i + 1)
            { s with
              attempted := s.attempted + 1
              passed := s.passed + 1
              total_time := s.total_time + elp dh dp }
          simp only at this ⊢
          omega
        · simp only
          omega

/-- C5 — fail-fast: if the `i`-th configured endpoint check fails for a
candidate, at most `i + 1` checkers are ever invoked for it, so checkers
`i+1 … N` are never called. -/
theorem c5_fail_fast (e : NetEnv) (p proto host ps : String) (port : Int) (i : Nat)
    (hsplit : pySplit p ':' = [host, ps]) (hparse : pyIntParse ps = some port)
    (hfail : endpointOk e p proto host port i = some false) :
    attemptedChecks e p proto ≤ i + 1 := by
  unfold attemptedChecks loopStateOf
  simp only [hsplit, hparse]
  by_cases hopen : port_open e host port = true
  · simp only [hopen, if_true]
    unfold checkCore
    unfold endpointOk at hfail
    by_cases hhttp : proto = "http" ∨ proto = "https"
    · simp only [hhttp, if_true] at hfail ⊢
      rcases hu : (protoUrls proto)[i]? with _ | url <;> rw [hu] at hfail
      · simp at hfail
      · simp only [Option.map_some', Option.some.injEq] at hfail
        have := httpLoop_attempted_le (check_http_proxy e p) (e.raiseAt p)
          (protoUrls proto) i url hu hfail 0 {}
        simpa using this
    · by_cases hsocks : proto = "socks4" ∨ proto = "socks5"
      · simp only [hhttp, if_false, hsocks, if_true] at hfail ⊢
        rcases hu : testTargets[i]? with _ | t <;> rw [hu] at hfail
        · simp at hfail
        · simp only [Option.map_some', Option.some.injEq] at hfail
          have := socksLoop_attempted_le
            (fun dh dp =>
              if proto = "socks4" then socks4_connect (e.socks4 host port dh dp) dp
              else socks5_connect (e.socks5 host port dh dp) dp)
            (fun dh dp => e.socksElapsed host port dh dp)
            (e.raiseAt p) testTargets i t hu hfail 0 {}
          simpa using this
      · simp only [hhttp, if_false, hsocks] at hfail
        simp at hfail
  · simp only [hopen]
    simp

/-- Witness for C5: in the default environment the very first HTTP check
fails, and exactly one checker was invoked. -/
theorem c5_fail_fast_witness :
    pySplit "1.2.3.4:80" ':' = ["1.2.3.4", "80"] ∧
    endpointOk ({} : NetEnv) "1.2.3.4:80" "http" "1.2.3.4" 80 0 = some false ∧
    attemptedChecks ({} : NetEnv) "1.2.3.4:80" "http" ≤ 0 + 1 :=
  ⟨by decide, by decide,
    c5_fail_fast ({} : NetEnv) "1.2.3.4:80" "http" "1.2.3.4" "80" 80 0
      (by decide) (by decide) (by decide)⟩

lemma httpLoop_raise_passed (chk : String → Bool × ℚ × String) (n : Nat) :
    ∀ (L : List String) (i : Nat) (s : LoopState), i ≤ n →
      (httpLoop chk (some n) L i s).passed ≤ s.passed + (n - i) := by
  intro L
  induction L with
  | nil => intro i s _; unfold httpLoop; omega
  | cons hd tl ih =>
    intro i s h
    unfold httpLoop
    split
    · omega
    · rename_i hne
      have hlt : i < n := by
        rcases Nat.lt_or_ge i n with h1 | h1
        · exact h1
        · exact absurd (congrArg some (Nat.le_antisymm h1 h)) hne
      dsimp only
      split
      · have := ih (i + 1)
          { s with
            attempted := s.attempted + 1
            passed := s.passed + 1
            total_time := s.total_time + (chk hd).2.1
            first_ip :=
              if s.first_ip = "" ∧ (chk hd).2.2 ≠ "" then (chk hd).2.2
              else s.first_ip } (by omega)
        simp only at this ⊢
        omega
      · simp only
        omega

lemma socksLoop_raise_passed (sck : String → Nat → Bool) (elp : String → Nat → ℚ)
    (n : Nat) :
    ∀ (L : List (String × Nat)) (i : Nat) (s : LoopState), i ≤ n →
      (socksLoop sck elp (some n) L i s).passed ≤ s.passed + (n - i) := by
  intro L
  induction L with
  | nil => intro i s _; unfold socksLoop; omega
  | cons hd tl ih =>
    intro i s h
    obtain ⟨dh, dp⟩ := hd
    unfold socksLoop
    split
    · omega
    · rename_i hne
      have hlt : i < n := by
        rcases Nat.lt_or_ge i n with h1 | h1
        · exact h1
        · exact absurd (congrArg some (Nat.le_antisymm h1 h)) hne
      dsimp only
      split
      · have := ih (i + 1)
          { s with
            attempted := s.attempted + 1
            passed := s.passed + 1
            total_time := s.total_time + elp dh dp } (by omega)
        simp only at this ⊢
        omega
      · simp only
        omega

lemma httpLoop_congr (chk1 chk2 : String → Bool × ℚ × String) (rq : Option Nat)
    (h : ∀ u, chk1 u = chk2 u) :
    ∀ (L : List String) (i : Nat) (s : LoopState),
      httpLoop chk1 rq L i s = httpLoop chk2 rq L i s := by
  intro L
  induction L with
  | nil => intro i s; rfl
  | cons hd tl ih =>
    intro i s
    unfold httpLoop
    rw [h hd]
    split
    · rfl
    · dsimp only
      split
      · exact ih (i + 1) _
      · rfl

lemma socksLoop_congr (sck1 sck2 : String → Nat → Bool) (elp1 elp2 : String → Nat → ℚ)
    (rq : Option Nat) (hs : ∀ dh dp, sck1 dh dp = sck2 dh dp)
    (he : ∀ dh dp, elp1 dh dp = elp2 dh dp) :
    ∀ (L : List (String × Nat)) (i : Nat) (s : LoopState),
      socksLoop sck1 elp1 rq L i s = socksLoop sck2 elp2 rq L i s := by
  intro L
  induction L with
  | nil => intro i s; rfl
  | cons hd tl ih =>
    intro i s
    obtain ⟨dh, dp⟩ := hd
    unfold socksLoop
    rw [hs dh dp, he dh dp]
    split
    · rfl
    · dsimp only
      split
      · exact ih (i + 1) _
      · rfl

lemma checkCore_congr (e1 e2 : NetEnv) (p proto host : String) (port : Int)
    (hhttp : ∀ url, e1.http p url = e2.http p url)
    (hraise : e1.raiseAt p = e2.raiseAt p)
    (hs4 : ∀ dh dp, e1.socks4 host port dh dp = e2.socks4 host port dh dp)
    (hs5 : ∀ dh dp, e1.socks5 host port dh dp = e2.socks5 host port dh dp)
    (hel : ∀ dh dp, e1.socksElapsed host port dh dp = e2.socksElapsed host port dh dp) :
    checkCore e1 p proto host port = checkCore e2 p proto host port := by
  unfold checkCore
  rw [hraise]
  split
  · dsimp only
    rw [httpLoop_congr (check_http_proxy e1 p) (check_http_proxy e2 p)
      (e2.raiseAt p) (fun u => by unfold check_http_proxy; rw [hhttp u])]
  · split
    · rw [socksLoop_congr _
        (fun dh dp =>
          if proto = "socks4" then socks4_connect (e2.socks4 host port dh dp) dp
          else socks5_connect (e2.socks5 host port dh dp) dp)
        _ (fun dh dp => e2.socksElapsed host port dh dp) (e2.raiseAt p)
        (fun dh dp => by rw [hs4 dh dp, hs5 dh dp]) (fun dh dp => hel dh dp)]
    · rfl

/-- C7 — per-candidate errors stay local: an unexpected exception raised
while a candidate's endpoints are being iterated is caught and the
candidate is finalized dead (never propagated), and the finalized task
entry of a candidate depends only on what the environment observes for
that candidate, so siblings are unaffected. -/
theorem c7_errors_local (e e1 e2 : NetEnv) (p proto : String) (n : Nat) :
    (e.raiseAt p = some n → n < configTotal proto →
      (check_proxy e p proto).alive = false) ∧
    (envAgreeAt e1 e2 p → taskEntry e1 p proto = taskEntry e2 p proto) := by
  constructor
  · intro hraise hn
    unfold check_proxy
    split
    · split
      · rfl
      · split
        · rename_i hsplit x port hparse hopen
          simp only [finalize, decide_eq_false_iff_not]
          rintro ⟨hpe, hpp⟩
          rename_i host ps
          by_cases hh : proto = "http" ∨ proto = "https"
          · have htot : (checkCore e p proto host port).1 = (protoUrls proto).length := by
              simp [checkCore, hh]
            have hpass : (checkCore e p proto host port).2.passed ≤ n := by
              simp only [checkCore, hh, if_true, hraise]
              simpa using httpLoop_raise_passed (check_http_proxy e p) n
                (protoUrls proto) 0 {} (Nat.zero_le n)
            have hlen : n < (protoUrls proto).length := by
              rcases hh with h | h <;> subst h <;>
                simpa [configTotal, protoUrls, VALIDATION_URLS,
                  HTTPS_VALIDATION_URL] using hn
            rw [htot] at hpe
            omega
          · by_cases hs : proto = "socks4" ∨ proto = "socks5"
            · have htot : (checkCore e p proto host port).1 = testTargets.length := by
                simp [checkCore, hh, hs]
              have hpass : (checkCore e p proto host port).2.passed ≤ n := by
                simp only [checkCore, hh, if_false, hs, if_true, hraise]
                simpa using socksLoop_raise_passed _ _ n testTargets 0 {} (Nat.zero_le n)
              have hlen : n < testTargets.length := by
                rcases hs with h | h <;> subst h <;>
                  simpa [configTotal, testTargets] using hn
              rw [htot] at hpe
              omega
            · have hz : checkCore e p proto host port = (0, {}) := by
                simp [checkCore, hh, hs]
              rw [hz] at hpp
              simp at hpp
        · rfl
    · rfl
  · rintro ⟨hraise, houter, hexc, hhttp, hrest⟩
    unfold taskEntry task
    rw [hexc, houter]
    have hcp : check_proxy e1 p proto = check_proxy e2 p proto := by
      unfold check_proxy
      rcases hsplit : pySplit p ':' with _ | ⟨host, _ | ⟨ps, _ | ⟨y, tl⟩⟩⟩ <;>
        simp only [hsplit]
      rcases hparse : pyIntParse ps with _ | port <;> simp only [hparse]
      obtain ⟨hpo, hs4, hs5, hel⟩ := hrest host ps port hsplit hparse
      unfold port_open
      rw [hpo, checkCore_congr e1 e2 p proto host port hhttp hraise hs4 hs5 hel]
    rw [hcp]

/-- Witness for C7: a candidate whose first check raises finalizes dead,
and two environments that differ only away from the candidate produce the
same task entry for it. -/
theorem c7_errors_local_witness :
    (check_proxy { raiseAt := fun _ => some 0 } "1.2.3.4:80" "http").alive = false ∧
    taskEntry ({} : NetEnv) "1.2.3.4:80" "http" =
      taskEntry { http := fun q u => if q = "other:1" then some (200, 1, u) else none }
        "1.2.3.4:80" "http" := by
  constructor
  · exact (c7_errors_local { raiseAt := fun _ => some 0 } {} {} "1.2.3.4:80" "http" 0).1
      rfl (by decide)
  · exact (c7_errors_local {} {}
      { http := fun q u => if q = "other:1" then some (200, 1, u) else none }
      "1.2.3.4:80" "http" 0).2
      ⟨rfl, rfl, rfl, fun url => by simp, fun host ps port _ _ =>
        ⟨rfl, fun _ _ => rfl, fun _ _ => rfl, fun _ _ => rfl⟩⟩

/-- C6 — the SOCKS4 checker sends
`[0x04, 0x01, destPort(2 bytes big endian), destIPv4(4 bytes)] + 0x00`,
reads up to 8 reply bytes, and succeeds iff the reply has at least two
bytes and byte 1 is `0x5A`; connection failure, resolver failure, read
timeout or a short read all fail. -/
theorem c6_socks4_protocol (c : Socks4Conn) (dp : Nat) (ipb : List Nat)
    (h : dp < 65536) :
    socks4Request dp ipb = [0x04, 0x01, dp / 256, dp % 256] ++ ipb ++ [0x00] ∧
    (socks4_connect c dp = true ↔
      c.conn = true ∧ ∃ dest_ip stream, c.resolve = some dest_ip ∧
        c.reply (socks4Request dp dest_ip) = some stream ∧
        2 ≤ (stream.take 8).length ∧ (stream.take 8).getD 1 0 = 0x5A) := by
  constructor
  · have h2 : dp / 256 < 256 := by
      rw [Nat.div_lt_iff_lt_mul (by norm_num)]
      omega
    simp [socks4Request, Nat.mod_eq_of_lt h2]
  · unfold socks4_connect
    cases hc : c.conn
    · simp
    · simp only [if_true]
      cases hr : c.resolve with
      | none => simp
      | some dest_ip =>
        cases hq : c.reply (socks4Request dp dest_ip) with
        | none => simp [hq]
        | some stream => simp [hq, decide_eq_true_eq]

/-- Concrete SOCKS4 peer for the C6 witness: grants every request. -/
def s4demo : Socks4Conn :=
  { conn := true, resolve := some [1, 2, 3, 4], reply := fun _ => some [0, 0x5A] }

/-- Witness for C6: port 80 is in range and the granting peer yields
success via the protocol characterization. -/
theorem c6_socks4_protocol_witness :
    80 < 65536 ∧ socks4_connect s4demo 80 = true :=
  ⟨by decide,
    (c6_socks4_protocol s4demo 80 [1, 2, 3, 4] (by decide)).2.mpr
      ⟨rfl, [1, 2, 3, 4], [0, 0x5A], rfl, rfl, by decide, by decide⟩⟩

lemma matchQuadAt_ne_nil (l m : List Char) (h : matchQuadAt l = some m) :
    m ≠ [] := by
  unfold matchQuadAt at h
  rcases hg : grabDigits l with ⟨d1, r1⟩
  rw [hg] at h
  dsimp only at h
  split at h
  · exact absurd h (by simp)
  · rename_i hd
    split at h
    · exact absurd h (by simp)
    · split at h
      · exact absurd h (by simp)
      · split at h
        · exact absurd h (by simp)
        · injection h with h2
          subst h2
          intro hnil
          have hd1 : d1 = [] :=
            (List.append_eq_nil.mp (List.append_eq_nil.mp
              (List.append_eq_nil.mp hnil).1).1).1
          exact hd (by simp [hd1])

lemma ipSearchAux_ne_nil : ∀ (l m : List Char), ipSearchAux l = some m → m ≠ [] := by
  intro l
  induction l with
  | nil => intro m h; simp [ipSearchAux] at h
  | cons hd tl ih =>
    intro m h
    unfold ipSearchAux at h
    rcases hq : matchQuadAt (hd :: tl) with _ | q <;> rw [hq] at h
    · exact ih m h
    · simp only [Option.some.injEq] at h
      subst h
      exact matchQuadAt_ne_nil _ _ hq

/-- C9 amended — an HTTP/HTTPS endpoint check succeeds iff the response
has status 200 and `IP_PATTERN` (`\d` 1–3 times, four dot-separated
groups) finds a match in the stripped body; the pattern does not
range-check octets, so the match need not be a syntactically valid IPv4
address.  Non-200, a body without a pattern match, or an exception fail. -/
theorem c9_http_success_amended (e : NetEnv) (p url : String) :
    (check_http_proxy e p url).1 = true ↔
      ∃ st el body, e.http p url = some (st, el, body) ∧ st = 200 ∧
        ipSearchAux (trimChars body.data) ≠ none := by
  unfold check_http_proxy
  cases hh : e.http p url with
  | none => simp
  | some v =>
    obtain ⟨st, el, body⟩ := v
    by_cases hst : st = 200
    · subst hst
      dsimp only
      rw [if_neg (by simp)]
      dsimp only
      cases hsearch : ipSearchAux (trimChars body.data) with
      | none =>
        simp [hsearch]
      | some m =>
        have hm := ipSearchAux_ne_nil _ _ hsearch
        have hne : (String.mk m != "") = true := by
          rw [bne_iff_ne]
          intro hc
          apply hm
          have := congrArg String.data hc
          simpa using this
        simp only [Option.elim, hne]
        constructor
        · intro _
          exact ⟨200, el, body, rfl, rfl, by simp [hsearch]⟩
        · intro _
          trivial
    · dsimp only
      rw [if_pos hst]
      constructor
      · intro hc
        exact absurd hc (by simp)
      · rintro ⟨st2, el2, body2, heq, h200, _⟩
        injection heq with heq2
        injection heq2 with h1 hrest
        exact absurd (h1.trans h200) hst

/-- Environment for the C9 counterexample: status 200 with a body whose
only dotted quad has octets 999. -/
def env999 : NetEnv :=
  { http := fun _ _ => some (200, 1, "999.999.999.999") }

/-- C9 counterexample — the check succeeds on `"999.999.999.999"` although
no contiguous substring of the body is a syntactically valid IPv4 address
(every candidate quad contains an octet above 255). -/
theorem c9_http_success_counterexample :
    (check_http_proxy env999 "1.2.3.4:80" "http://icanhazip.com").1 = true ∧
    ((segments ("999.999.999.999".data)).all fun t => !(isValidIPv4Chars t)) = true := by
  exact ⟨by decide, by decide⟩

/-! ### Lemmas about the batch loop and batching. -/

lemma aliveResults_append (e : NetEnv) (proto : String) (a b : List String) :
    aliveResults e proto (a ++ b) = aliveResults e proto a ++ aliveResults e proto b := by
  simp [aliveResults, List.filterMap_append]

lemma mem_aliveResults (e : NetEnv) (proto : String) (l : List String)
    (r : ProxyResult) (h : r ∈ aliveResults e proto l) : r.alive = true := by
  unfold aliveResults at h
  rcases List.mem_filterMap.mp h with ⟨a, _, ha⟩
  rcases a with pr | u
  · simp [aliveOf] at ha
  · simp only [aliveOf] at ha
    split at ha
    · rename_i halive
      injection ha with h2
      subst h2
      exact halive
    · exact Option.noConfusion ha

lemma checkAllGo_live (e : NetEnv) (proto : String) (target : Nat) :
    ∀ (bs : List (List String)) (acc : List ProxyResult),
      (checkAllGo e proto target bs acc).1 =
        acc ++ aliveResults e proto (checkAllGo e proto target bs acc).2 := by
  intro bs
  induction bs with
  | nil => intro acc; simp [checkAllGo, aliveResults]
  | cons b rest ih =>
    intro acc
    unfold checkAllGo
    dsimp only
    split
    · rfl
    · dsimp only
      rw [ih (acc ++ aliveResults e proto b), aliveResults_append, List.append_assoc]

lemma checkAllGo_disp (e : NetEnv) (proto : String) (target : Nat) :
    ∀ (bs : List (List String)) (acc : List ProxyResult),
      ∃ k, (checkAllGo e proto target bs acc).2 = (bs.take k).flatten := by
  intro bs
  induction bs with
  | nil => intro acc; exact ⟨0, by simp [checkAllGo]⟩
  | cons b rest ih =>
    intro acc
    unfold checkAllGo
    dsimp only
    split
    · exact ⟨1, by simp⟩
    · obtain ⟨k, hk⟩ := ih (acc ++ aliveResults e proto b)
      exact ⟨k + 1, by simp [hk]⟩

lemma checkAllGo_stop_or_all (e : NetEnv) (proto : String) (target : Nat) :
    ∀ (bs : List (List String)) (acc : List ProxyResult),
      (checkAllGo e proto target bs acc).2 = bs.flatten ∨
        (0 < target ∧ target ≤ (checkAllGo e proto target bs acc).1.length) := by
  intro bs
  induction bs with
  | nil => intro acc; left; simp [checkAllGo]
  | cons b rest ih =>
    intro acc
    unfold checkAllGo
    dsimp only
    split
    · rename_i hstop
      right
      exact hstop
    · rcases ih (acc ++ aliveResults e proto b) with h | h
      · left
        dsimp only
        rw [h]
        simp
      · right
        exact h

lemma checkAllGo_min (e : NetEnv) (proto : String) (target : Nat) :
    ∀ (bs : List (List String)) (acc : List ProxyResult) (k : Nat), 1 ≤ k →
      0 < target →
      target ≤ acc.length + (aliveResults e proto ((bs.take k).flatten)).length →
      (checkAllGo e proto target bs acc).2.length ≤ ((bs.take k).flatten).length := by
  intro bs
  induction bs with
  | nil =>
    intro acc k _ _ _
    simp [checkAllGo]
  | cons b rest ih =>
    intro acc k hk hT hreach
    obtain ⟨k, rfl⟩ : ∃ j, k = j + 1 := ⟨k - 1, by omega⟩
    unfold checkAllGo
    dsimp only
    split
    · simp only [List.take_succ_cons, List.flatten_cons, List.length_append]
      omega
    · rename_i hns
      have hlive2 : ¬ (target ≤ (acc ++ aliveResults e proto b).length) := by
        intro hcon
        exact hns ⟨hT, hcon⟩
      simp only [List.take_succ_cons, List.flatten_cons, aliveResults_append,
        List.length_append] at hreach ⊢
      rcases Nat.eq_zero_or_pos k with rfl | hk1
      · exfalso
        apply hlive2
        simp only [List.take_zero, List.flatten_nil] at hreach
        simp only [List.length_append]
        simpa [aliveResults] using hreach
      · have := ih (acc ++ aliveResults e proto b) k hk1 hT
          (by simp only [List.length_append]; omega)
        omega

lemma chunks_cons (l : List String) (hl : l ≠ []) :
    chunks l = l.take BATCH_SIZE :: chunks (l.drop BATCH_SIZE) := by
  have hn : 0 < l.length := List.length_pos.mpr hl
  have hcount : (l.length + (BATCH_SIZE - 1)) / BATCH_SIZE =
      ((l.drop BATCH_SIZE).length + (BATCH_SIZE - 1)) / BATCH_SIZE + 1 := by
    rw [List.length_drop]
    simp only [BATCH_SIZE]
    omega
  unfold chunks
  rw [hcount, List.range_succ_eq_map, List.map_cons, List.map_map]
  congr 1
  apply List.map_congr_left
  intro k hk
  simp only [Function.comp_apply, List.drop_drop]
  rw [show BATCH_SIZE * (k + 1) = BATCH_SIZE + BATCH_SIZE * k from by ring]

lemma chunks_flatten_aux :
    ∀ (n : Nat) (l : List String), l.length ≤ n → (chunks l).flatten = l := by
  intro n
  induction n with
  | zero =>
    intro l hl
    have : l = [] := List.length_eq_zero.mp (by omega)
    subst this
    simp [chunks]
  | succ n ih =>
    intro l hl
    by_cases hnil : l = []
    · subst hnil
      simp [chunks]
    · rw [chunks_cons l hnil]
      have hlen : (l.drop BATCH_SIZE).length ≤ n := by
        rw [List.length_drop]
        have : 0 < l.length := List.length_pos.mpr hnil
        simp only [BATCH_SIZE]
        omega
      simp only [List.flatten_cons, ih _ hlen, List.take_append_drop]

lemma chunks_flatten (l : List String) : (chunks l).flatten = l :=
  chunks_flatten_aux l.length l le_rfl

lemma chunks_take_aux :
    ∀ (n : Nat) (l : List String) (k : Nat), l.length ≤ n →
      ((chunks l).take k).flatten = l.take (BATCH_SIZE * k) := by
  intro n
  induction n with
  | zero =>
    intro l k hl
    have : l = [] := List.length_eq_zero.mp (by omega)
    subst this
    simp [chunks]
  | succ n ih =>
    intro l k hl
    by_cases hnil : l = []
    · subst hnil
      simp [chunks]
    · rcases Nat.eq_zero_or_pos k with rfl | hk
      · simp
      · obtain ⟨k, rfl⟩ : ∃ j, k = j + 1 := ⟨k - 1, by omega⟩
        rw [chunks_cons l hnil]
        have hlen : (l.drop BATCH_SIZE).length ≤ n := by
          rw [List.length_drop]
          have : 0 < l.length := List.length_pos.mpr hnil
          simp only [BATCH_SIZE]
          omega
        simp only [List.take_succ_cons, List.flatten_cons, ih _ k hlen]
        have : BATCH_SIZE * (k + 1) = BATCH_SIZE + BATCH_SIZE * k := by ring
        rw [this, List.take_add]

/-- C2 — `check_all` returns exactly the alive results among the
candidates it dispatched, sorted ascending by `response_time`; no dead
result appears in the returned list. -/
theorem c2_check_all_sorted_alive (e : NetEnv) (proxies : List String)
    (proto : String) (target : Nat) :
    List.Sorted rtLE (check_all e proxies proto target) ∧
    (check_all e proxies proto target).Perm
      (aliveResults e proto (dispatched e proxies proto target)) ∧
    ∀ r ∈ check_all e proxies proto target, r.alive = true := by
  have hlive := checkAllGo_live e proto target (chunks proxies) []
  have hperm := List.perm_insertionSort rtLE (checkAllGo e proto target (chunks proxies) []).1
  have hperm2 : (check_all e proxies proto target).Perm
      (aliveResults e proto (dispatched e proxies proto target)) := by
    unfold check_all dispatched
    rw [← List.nil_append (aliveResults e proto (checkAllGo e proto target (chunks proxies) []).2),
      ← hlive]
    exact hperm
  refine ⟨List.sorted_insertionSort rtLE _, hperm2, ?_⟩
  intro r hr
  exact mem_aliveResults e proto _ r (hperm2.mem_iff.mp hr)

/-- Witness for C2 at a concrete input. -/
theorem c2_check_all_sorted_alive_witness :
    List.Sorted rtLE (check_all ({} : NetEnv) ["1.2.3.4:80"] "http" 0) ∧
    ∀ r ∈ check_all ({} : NetEnv) ["1.2.3.4:80"] "http" 0, r.alive = true :=
  ⟨(c2_check_all_sorted_alive {} ["1.2.3.4:80"] "http" 0).1,
    fun r hr => (c2_check_all_sorted_alive {} ["1.2.3.4:80"] "http" 0).2.2 r hr⟩

/-- C8 — with a positive target, the dispatched candidates are a whole
number of batches (a prefix of the input, batches never cut mid-way), a
batch beyond the input is only withheld after the accumulated alive count
reaches the target, and as soon as some batch boundary reaches the target
no candidate of any later batch is dispatched. -/
theorem c8_early_stop (e : NetEnv) (proxies : List String) (proto : String)
    (target : Nat) (hT : 0 < target) :
    (∃ j, dispatched e proxies proto target = proxies.take (BATCH_SIZE * j)) ∧
    ((dispatched e proxies proto target).length < proxies.length →
      target ≤ (aliveResults e proto (dispatched e proxies proto target)).length) ∧
    (∀ k, target ≤ (aliveResults e proto (proxies.take (BATCH_SIZE * k))).length →
      (dispatched e proxies proto target).length ≤ BATCH_SIZE * k) := by
  obtain ⟨j, hj⟩ := checkAllGo_disp e proto target (chunks proxies) []
  refine ⟨⟨j, ?_⟩, ?_, ?_⟩
  · rw [dispatched, hj, chunks_take_aux proxies.length proxies j le_rfl]
  · intro hlt
    rcases checkAllGo_stop_or_all e proto target (chunks proxies) [] with h | h
    · exfalso
      rw [dispatched, h, chunks_flatten] at hlt
      omega
    · have hlive := checkAllGo_live e proto target (chunks proxies) []
      rw [dispatched, ← List.nil_append
        (aliveResults e proto (checkAllGo e proto target (chunks proxies) []).2), ← hlive]
      exact h.2
  · intro k hreach
    rcases Nat.eq_zero_or_pos k with rfl | hk
    · exfalso
      simp only [Nat.mul_zero, List.take_zero] at hreach
      have : aliveResults e proto [] = [] := by simp [aliveResults]
      rw [this] at hreach
      simp at hreach
      omega
    · have := checkAllGo_min e proto target (chunks proxies) [] k hk hT
        (by
          rw [chunks_take_aux proxies.length proxies k le_rfl]
          simpa using hreach)
      rw [chunks_take_aux proxies.length proxies k le_rfl] at this
      calc (dispatched e proxies proto target).length
          ≤ (proxies.take (BATCH_SIZE * k)).length := this
        _ ≤ BATCH_SIZE * k := by rw [List.length_take]; omega

/-- Witness for C8 at a concrete input with target 1. -/
theorem c8_early_stop_witness :
    (∃ j, dispatched ({} : NetEnv) ["1.2.3.4:80"] "http" 1 =
      ["1.2.3.4:80"].take (BATCH_SIZE * j)) :=
  (c8_early_stop ({} : NetEnv) ["1.2.3.4:80"] "http" 1 (by decide)).1

end Checker
